import Mathlib

/-!
Shallow embedding of `src/etl_connector.py` (class `CISAVulnerabilityETL`).

Python values flowing through the pipeline are JSON-like dictionaries plus
`datetime` objects; they are modelled by the inductive type `Value` below.
Python dictionaries are modelled as association lists in insertion order
(assignment to an existing key keeps its position, a new key is appended,
matching CPython dict semantics).  `datetime.utcnow()` is modelled by an
explicit `now : PyDateTime` parameter threaded into each function that calls
it.  Fallible Python code is modelled with `Except String` (the string is the
exception description) or `Option`; external effects (the HTTP request, the
MongoDB operations) are modelled by explicit inputs (`HttpResult`,
`MongoState`, `StoreFaults`) and an explicit event trace (`StoreEvent`,
`FetchLog`).
-/

/-- Model of a Python `datetime.datetime` value (naive UTC). -/
structure PyDateTime where
  year : Nat
  month : Nat
  day : Nat
  hour : Nat
  minute : Nat
  second : Nat
  microsecond : Nat
deriving DecidableEq, Repr

/-- Zero padding to two digits, as used by `datetime.isoformat`. -/
def pad2 (n : Nat) : String :=
  if n < 10 then "0" ++ toString n else toString n

/-- Zero padding to four digits, as used by `datetime.isoformat` for years. -/
def pad4 (n : Nat) : String :=
  if n < 10 then "000" ++ toString n
  else if n < 100 then "00" ++ toString n
  else if n < 1000 then "0" ++ toString n
  else toString n

/-- Zero padding to six digits, for the microsecond part of `isoformat`. -/
def pad6 (n : Nat) : String :=
  if n < 10 then "00000" ++ toString n
  else if n < 100 then "0000" ++ toString n
  else if n < 1000 then "000" ++ toString n
  else if n < 10000 then "00" ++ toString n
  else if n < 100000 then "0" ++ toString n
  else toString n

/-- Model of `datetime.date().isoformat()`: the `YYYY-MM-DD` string. -/
def PyDateTime.dateIso (t : PyDateTime) : String :=
  pad4 t.year ++ "-" ++ pad2 t.month ++ "-" ++ pad2 t.day

/-- Model of `datetime.isoformat()` on a naive datetime. -/
def PyDateTime.isoformat (t : PyDateTime) : String :=
  t.dateIso ++ "T" ++ pad2 t.hour ++ ":" ++ pad2 t.minute ++ ":" ++ pad2 t.second ++
    (if t.microsecond = 0 then "" else "." ++ pad6 t.microsecond)

/-- JSON-like Python values flowing through the ETL pipeline.  `obj` is a
Python dict modelled as an association list in insertion order; `pydatetime`
is a `datetime.datetime` object stored into a record by the enhancer. -/
inductive Value where
  | null
  | bool (b : Bool)
  | int (n : Int)
  | str (s : String)
  | pydatetime (t : PyDateTime)
  | list (items : List Value)
  | obj (fields : List (String × Value))
deriving Repr

/-- Python truthiness (`if not x`): None, False, 0, "", [], {} are falsy. -/
def Value.truthy : Value → Bool
  | .null => false
  | .bool b => b
  | .int n => n != 0
  | .str s => s != ""
  | .pydatetime _ => true
  | .list xs => !xs.isEmpty
  | .obj fs => !fs.isEmpty

/-- Model of `isinstance(x, dict)`. -/
def Value.isObj : Value → Bool
  | .obj _ => true
  | _ => false

/-- Dictionary lookup on an association list: first matching key wins. -/
def lookupKV : List (String × Value) → String → Option Value
  | [], _ => none
  | (k, v) :: rest, q => if k = q then some v else lookupKV rest q

/-- Dictionary assignment `d[k] = v`: overwrite the first occurrence of `k`
in place, otherwise append at the end (CPython insertion-order semantics). -/
def setKV : List (String × Value) → String → Value → List (String × Value)
  | [], k, v => [(k, v)]
  | (k0, v0) :: rest, k, v =>
      if k0 = k then (k, v) :: rest else (k0, v0) :: setKV rest k v

/-- Dictionary lookup `d[k]` or `d.get(k)` on a `Value`; non-dicts have no
keys.  All call sites in the source are guarded by an `isinstance` check. -/
def Value.lookup : Value → String → Option Value
  | .obj fs, k => lookupKV fs k
  | _, _ => none

/-- Model of `d.get(k, default)`. -/
def Value.getD (v : Value) (k : String) (d : Value) : Value :=
  match v.lookup k with
  | some w => w
  | none => d

/-- Model of Python `len(x)`: defined for strings, lists and dicts; `none`
models the `TypeError` raised on other values. -/
def Value.pyLen : Value → Option Nat
  | .str s => some s.data.length
  | .list xs => some xs.length
  | .obj fs => some fs.length
  | _ => none

/-- Model of Python iteration (`enumerate(x)` item source): strings yield
one-character strings, lists their elements, dicts their keys; `none` models
the `TypeError` raised on non-iterable values. -/
def Value.pyIter : Value → Option (List Value)
  | .str s => some (s.data.map fun c => Value.str (String.singleton c))
  | .list xs => some xs
  | .obj fs => some (fs.map fun p => Value.str p.1)
  | _ => none

/-!
Model of `datetime.strptime(s, "%Y-%m-%d")` (lines 144-145).  CPython
compiles this format to the regular expression
`(\d\d\d\d)-(1[0-2]|0[1-9]|[1-9])-(3[01]|[12]\d|0[1-9]|[1-9])`, requires a
full match, and then validates the calendar date through the `datetime`
constructor (year at least 1, day at most the length of the month).  Since
none of the three token patterns can contain a dash, a full regex match is
equivalent to splitting the input on dashes and matching each part.
-/

/-- Split a character list on the dash character (every occurrence). -/
def splitDashes : List Char → List (List Char)
  | [] => [[]]
  | c :: rest =>
    match splitDashes rest with
    | [] => [[]]
    | g :: gs => if c = '-' then [] :: g :: gs else (c :: g) :: gs

/-- Numeric value of a list of decimal digit characters. -/
def natOfDigits (cs : List Char) : Nat :=
  cs.foldl (fun a c => 10 * a + (c.toNat - 48)) 0

/-- The `%Y` token: exactly four decimal digits. -/
def yearTok (cs : List Char) : Bool :=
  cs.length == 4 && cs.all (fun c => c.isDigit)

/-- The `%m` token: `1[0-2]|0[1-9]|[1-9]`. -/
def monthTok : List Char → Bool
  | [c] => c.isDigit && c != '0'
  | [c1, c2] =>
      (c1 == '1' && (c2 == '0' || c2 == '1' || c2 == '2')) ||
      (c1 == '0' && c2.isDigit && c2 != '0')
  | _ => false

/-- The `%d` token: `3[01]|[12]\d|0[1-9]|[1-9]`. -/
def dayTok : List Char → Bool
  | [c] => c.isDigit && c != '0'
  | [c1, c2] =>
      (c1 == '3' && (c2 == '0' || c2 == '1')) ||
      ((c1 == '1' || c1 == '2') && c2.isDigit) ||
      (c1 == '0' && c2.isDigit && c2 != '0')
  | _ => false

/-- Gregorian leap-year rule used by `datetime`. -/
def isLeap (y : Nat) : Bool :=
  (y % 4 == 0 && y % 100 != 0) || y % 400 == 0

/-- Length of a month, as validated by the `datetime` constructor. -/
def daysInMonth (y m : Nat) : Nat :=
  if m = 2 then (if isLeap y then 29 else 28)
  else if m = 4 ∨ m = 6 ∨ m = 9 ∨ m = 11 then 30
  else 31

/-- Model of `datetime.strptime(s, "%Y-%m-%d")`: `none` models the
`ValueError` raised on a parse failure, `some` the resulting midnight
datetime. -/
def strptime_ymd (s : String) : Option PyDateTime :=
  match splitDashes s.data with
  | [ys, ms, ds] =>
    if yearTok ys && monthTok ms && dayTok ds then
      let y := natOfDigits ys
      let m := natOfDigits ms
      let d := natOfDigits ds
      if 1 ≤ y ∧ d ≤ daysInMonth y m then
        some ⟨y, m, d, 0, 0, 0, 0⟩
      else none
    else none
  | _ => none

/-!
The Record Enhancer: `_enhance_vulnerability_record` (lines 126-149).
-/

/-- The record after `enhanced_vuln = dict(vuln_record)` followed by
`enhanced_vuln.update({...})` with the five fixed enhancement fields
(lines 128-137), applied in the literal order of the update. -/
def enhancedBase (fields : List (String × Value)) (catalog_info : Value)
    (record_position : Nat) (now : PyDateTime) : List (String × Value) :=
  setKV (setKV (setKV (setKV (setKV fields
    "record_processed_at" (.pydatetime now))
    "processing_date" (.str now.dateIso))
    "record_position" (.int record_position))
    "source_system" (.str "cisa_kev_catalog"))
    "catalog_information" catalog_info

/-- One iteration of the date-field loop (lines 140-147) for field `f`:
checks `f in vuln_record and vuln_record[f]` on the original record `raw`,
then attempts `strptime`.  A parse failure (`ValueError`) is caught and only
skips the derived field; a non-string truthy value makes `strptime` raise
`TypeError`, which the `except ValueError` clause does not catch, so it
escapes as a record-level failure (modelled by `.error`). -/
def applyDateField (rec : List (String × Value)) (raw : List (String × Value))
    (f : String) : Except String (List (String × Value)) :=
  match lookupKV raw f with
  | none => .ok rec
  | some v =>
    if v.truthy then
      match v with
      | .str s =>
        match strptime_ymd s with
        | some dt => .ok (setKV rec (f ++ "_datetime") (.pydatetime dt))
        | none => .ok rec
      | _ => .error "TypeError: strptime argument must be str"
    else .ok rec

/-- Model of `_enhance_vulnerability_record` (lines 126-149).  `dict(x)` on a
non-mapping record raises (the records of the JSON feed are objects), the
five enhancement fields are written, then the two date fields `dateAdded` and
`dueDate` are processed in order. -/
def _enhance_vulnerability_record (vuln_record catalog_info : Value)
    (record_position : Nat) (now : PyDateTime) : Except String Value :=
  match vuln_record with
  | .obj fields =>
    match applyDateField (enhancedBase fields catalog_info record_position now)
        fields "dateAdded" with
    | .error e => .error e
    | .ok e1 =>
      match applyDateField e1 fields "dueDate" with
      | .error e => .error e
      | .ok e2 => .ok (.obj e2)
  | _ => .error "TypeError: cannot convert record to dict"

/-- True when enhancement of record `r` at position `i` does not raise. -/
def enhanceSucceeds (r meta : Value) (i : Nat) (now : PyDateTime) : Bool :=
  match _enhance_vulnerability_record r meta i now with
  | .ok _ => true
  | .error _ => false

/-!
The Transformer: `process_vulnerability_records` (lines 86-124).
-/

/-- The `catalog_metadata` dictionary built once per run (lines 101-106). -/
def catalog_metadata (api_data : Value) (now : PyDateTime) : Value :=
  .obj [
    ("source_catalog_version", api_data.getD "catalogVersion" .null),
    ("catalog_release_date", api_data.getD "dateReleased" .null),
    ("total_vulnerabilities", api_data.getD "count" .null),
    ("data_extraction_time", .str now.isoformat)]

/-- The `for index, vulnerability in enumerate(...)` loop (lines 110-121):
each record is enhanced at its ordinal `i` in the original sequence; a raised
enhancement error is caught and the record dropped; a truthy enhanced record
is appended. -/
def process_loop (items : List Value) (meta : Value) (i : Nat)
    (now : PyDateTime) : List Value :=
  match items with
  | [] => []
  | r :: rest =>
    match _enhance_vulnerability_record r meta i now with
    | .ok e =>
      if e.truthy then e :: process_loop rest meta (i + 1) now
      else process_loop rest meta (i + 1) now
    | .error _ => process_loop rest meta (i + 1) now

/-- Model of `process_vulnerability_records` (lines 86-124).  The input is
the value returned by the extractor (`none` models Python `None`).  The
result is `.error` when a statement outside the per-record try block raises
(the `len` call on line 98 on a non-sized `vulnerabilities` value, or the
`enumerate` call on line 110 on a non-iterable one); such an exception
propagates to the orchestrator. -/
def process_vulnerability_records (api_data : Option Value)
    (now : PyDateTime) : Except String (List Value) :=
  match api_data with
  | none => .ok []
  | some api =>
    if !api.truthy || !api.isObj then .ok []
    else
      let records := api.getD "vulnerabilities" (.list [])
      if !records.truthy then .ok []
      else
        match records.pyLen with
        | none => .error "TypeError: object has no len"
        | some _ =>
          match records.pyIter with
          | none => .error "TypeError: object is not iterable"
          | some items => .ok (process_loop items (catalog_metadata api now) 0 now)

/-!
The Loader: `store_in_mongodb` (lines 151-196).
-/

/-- State of the target MongoDB collection. -/
structure MongoState where
  docs : List Value
deriving Repr

/-- Store interactions performed during one `store_in_mongodb` call. -/
inductive StoreEvent where
  | connect
  | countDocuments (n : Nat)
  | deleteMany (n : Nat)
  | insertMany (n : Nat)
  | createIndexes
  | close
deriving DecidableEq, Repr

/-- External failure injection for the three fallible store operations
(`MongoClient`, `delete_many`, `insert_many`); each flag set means the
corresponding operation raises. -/
structure StoreFaults where
  connectFails : Bool
  deleteFails : Bool
  insertFails : Bool
deriving Repr

/-- The fault assignment under which every store operation succeeds. -/
def noFaults : StoreFaults := ⟨false, false, false⟩

/-- Model of `store_in_mongodb` (lines 151-184): refuse an empty batch
before any connection; otherwise connect, count, delete all existing
documents when the count is positive, bulk-insert the batch, create indexes
(best effort), and close the connection in the `finally` block.  Any raised
store operation is caught and turns the result to `false`; a failed insert
after the delete leaves the collection empty (the delete is not rolled
back). -/
def store_in_mongodb (processed_records : List Value) (st : MongoState)
    (f : StoreFaults) : Bool × MongoState × List StoreEvent :=
  if processed_records.isEmpty then (false, st, [])
  else if f.connectFails then (false, st, [])
  else
    let k := st.docs.length
    if 0 < k then
      if f.deleteFails then
        (false, st, [.connect, .countDocuments k, .close])
      else if f.insertFails then
        (false, ⟨[]⟩, [.connect, .countDocuments k, .deleteMany k, .close])
      else
        (true, ⟨processed_records⟩,
          [.connect, .countDocuments k, .deleteMany k,
           .insertMany processed_records.length, .createIndexes, .close])
    else
      if f.insertFails then
        (false, st, [.connect, .countDocuments k, .close])
      else
        (true, ⟨processed_records⟩,
          [.connect, .countDocuments k,
           .insertMany processed_records.length, .createIndexes, .close])

/-!
The Extractor: `fetch_vulnerability_data` (lines 34-84).
-/

/-- Outcome of the single HTTP GET (line 45): a transport failure, or a
response with a status code and a body.  The body is given as its JSON parse
result; `none` models an undecodable body (`json.JSONDecodeError`). -/
inductive HttpResult where
  | timeout
  | connectionError
  | response (status : Nat) (body : Option Value)

/-- Log lines emitted by the extractor, one constructor per `logger` call
site in `fetch_vulnerability_data`. -/
inductive FetchLog where
  | infoFetchOk (catalog : Value) (n : Nat)
  | errTimeout
  | errConnection
  | errHttp (status : Nat)
  | errJsonDecode
  | errUnexpected (msg : String)
deriving Repr

/-- Model of `fetch_vulnerability_data` (lines 34-84).  `raise_for_status`
raises `HTTPError` exactly for the 4xx and 5xx status codes (400 to 599);
for any other status code the body is processed.  The
`except json.JSONDecodeError` clause catches only an undecodable body, while
the `ValueError` of line 59, the `KeyError` of line 62 and the `TypeError`
of the `len` call on line 67 all fall to the generic `except Exception`
clause of line 82.  Every failure path returns `none`; the failure cause
appears only in the log. -/
def fetch_vulnerability_data (http : HttpResult) : Option Value × List FetchLog :=
  match http with
  | .timeout => (none, [.errTimeout])
  | .connectionError => (none, [.errConnection])
  | .response status body =>
    if 400 ≤ status ∧ status < 600 then (none, [.errHttp status])
    else
      match body with
      | none => (none, [.errJsonDecode])
      | some v =>
        if !v.isObj then
          (none, [.errUnexpected "API returned invalid data format"])
        else if (v.lookup "vulnerabilities").isNone then
          (none, [.errUnexpected "Missing vulnerabilities key in API response"])
        else
          match (v.getD "vulnerabilities" (.list [])).pyLen with
          | none => (none, [.errUnexpected "TypeError: object has no len"])
          | some n => (some v, [.infoFetchOk (v.getD "catalogVersion" (.str "Unknown")) n])

/-!
The Pipeline Orchestrator: `execute_complete_pipeline` (lines 198-239).
-/

/-- Inputs of one pipeline run: the HTTP outcome, the wall clock, the initial
collection state and the store fault assignment. -/
structure PipelineEnv where
  http : HttpResult
  now : PyDateTime
  store : MongoState
  faults : StoreFaults

/-- The orchestrator body after the extraction phase (lines 209-239): the
falsy-payload check, the transformation phase (whose raised exception is
caught by the `except` clause of line 237 and converted to `False`), the
empty-batch check, and the storage phase whose boolean is the result. -/
def pipeline_after_fetch (raw : Option Value) (now : PyDateTime)
    (st : MongoState) (f : StoreFaults) : Bool × MongoState × List StoreEvent :=
  match raw with
  | none => (false, st, [])
  | some v =>
    if !v.truthy then (false, st, [])
    else
      match process_vulnerability_records (some v) now with
      | .error _ => (false, st, [])
      | .ok batch =>
        if batch.isEmpty then (false, st, [])
        else store_in_mongodb batch st f

/-- Model of `execute_complete_pipeline` (lines 198-239): extraction followed
by `pipeline_after_fetch`.  The result carries the returned boolean, the
final collection state and the trace of store interactions. -/
def execute_complete_pipeline (env : PipelineEnv) : Bool × MongoState × List StoreEvent :=
  pipeline_after_fetch (fetch_vulnerability_data env.http).1 env.now env.store env.faults

/-- Original indices of the records whose enhancement succeeds, in source
order; stated from the specification wording for the Batch data model
(positions are ordinals in the original sequence, with gaps at drops). -/
def surviving_positions (items : List Value) (meta : Value) (i : Nat)
    (now : PyDateTime) : List Nat :=
  match items with
  | [] => []
  | r :: rest =>
    match _enhance_vulnerability_record r meta i now with
    | .ok _ => i :: surviving_positions rest meta (i + 1) now
    | .error _ => surviving_positions rest meta (i + 1) now

/-!
Basic lemmas about the dictionary model.
-/

/-- Assignment then lookup at the same key yields the assigned value. -/
theorem lookupKV_setKV_self (l : List (String × Value)) (k : String) (v : Value) :
    lookupKV (setKV l k v) k = some v := by
  induction l with
  | nil => simp [setKV, lookupKV]
  | cons p rest ih =>
    obtain ⟨k0, v0⟩ := p
    by_cases h : k0 = k
    · simp [setKV, h, lookupKV]
    · simp [setKV, h, lookupKV, ih]

/-- Assignment does not change lookup at a different key. -/
theorem lookupKV_setKV_ne (l : List (String × Value)) (k : String) (v : Value)
    (q : String) (h : q ≠ k) : lookupKV (setKV l k v) q = lookupKV l q := by
  induction l with
  | nil => simp [setKV, lookupKV, Ne.symm h]
  | cons p rest ih =>
    obtain ⟨k0, v0⟩ := p
    by_cases h0 : k0 = k
    · subst h0
      simp [setKV, lookupKV, Ne.symm h]
    · simp only [setKV, h0, if_false, lookupKV]
      by_cases h1 : k0 = q
      · simp [h1]
      · simp [h1, ih]

/-- Assignment never produces an empty dictionary. -/
theorem setKV_ne_nil (l : List (String × Value)) (k : String) (v : Value) :
    setKV l k v ≠ [] := by
  cases l with
  | nil => simp [setKV]
  | cons p rest =>
    obtain ⟨k0, v0⟩ := p
    by_cases h : k0 = k <;> simp [setKV, h]

/-- A dictionary with a present key is nonempty. -/
theorem lookupKV_some_ne_nil {l : List (String × Value)} {k : String} {v : Value}
    (h : lookupKV l k = some v) : l ≠ [] := by
  cases l with
  | nil => simp [lookupKV] at h
  | cons p rest => simp

/-!
Lemmas about the Record Enhancer.
-/

/-- Lookup in the enhanced base at a key other than the five enhancement
keys is the lookup in the raw record. -/
theorem enhancedBase_lookup_ne (fields : List (String × Value)) (meta : Value)
    (i : Nat) (now : PyDateTime) (k : String)
    (h1 : k ≠ "record_processed_at") (h2 : k ≠ "processing_date")
    (h3 : k ≠ "record_position") (h4 : k ≠ "source_system")
    (h5 : k ≠ "catalog_information") :
    lookupKV (enhancedBase fields meta i now) k = lookupKV fields k := by
  unfold enhancedBase
  rw [lookupKV_setKV_ne _ _ _ _ h5, lookupKV_setKV_ne _ _ _ _ h4,
    lookupKV_setKV_ne _ _ _ _ h3, lookupKV_setKV_ne _ _ _ _ h2,
    lookupKV_setKV_ne _ _ _ _ h1]

/-- The five enhancement fields of the enhanced base. -/
theorem enhancedBase_lookup_fixed (fields : List (String × Value)) (meta : Value)
    (i : Nat) (now : PyDateTime) :
    lookupKV (enhancedBase fields meta i now) "record_processed_at" = some (.pydatetime now) ∧
    lookupKV (enhancedBase fields meta i now) "processing_date" = some (.str now.dateIso) ∧
    lookupKV (enhancedBase fields meta i now) "record_position" = some (.int i) ∧
    lookupKV (enhancedBase fields meta i now) "source_system" = some (.str "cisa_kev_catalog") ∧
    lookupKV (enhancedBase fields meta i now) "catalog_information" = some meta := by
  unfold enhancedBase
  refine ⟨?_, ?_, ?_, ?_, ?_⟩
  · rw [lookupKV_setKV_ne _ _ _ _ (by decide), lookupKV_setKV_ne _ _ _ _ (by decide),
      lookupKV_setKV_ne _ _ _ _ (by decide), lookupKV_setKV_ne _ _ _ _ (by decide),
      lookupKV_setKV_self]
  · rw [lookupKV_setKV_ne _ _ _ _ (by decide), lookupKV_setKV_ne _ _ _ _ (by decide),
      lookupKV_setKV_ne _ _ _ _ (by decide), lookupKV_setKV_self]
  · rw [lookupKV_setKV_ne _ _ _ _ (by decide), lookupKV_setKV_ne _ _ _ _ (by decide),
      lookupKV_setKV_self]
  · rw [lookupKV_setKV_ne _ _ _ _ (by decide), lookupKV_setKV_self]
  · rw [lookupKV_setKV_self]

/-- The enhanced base is never an empty dictionary. -/
theorem enhancedBase_ne_nil (fields : List (String × Value)) (meta : Value)
    (i : Nat) (now : PyDateTime) : enhancedBase fields meta i now ≠ [] := by
  unfold enhancedBase
  exact setKV_ne_nil _ _ _

/-- A successful date-field step only ever touches the derived key of its
field: lookup at any other key is unchanged. -/
theorem applyDateField_ok_elim {rec raw : List (String × Value)} {g : String}
    {out : List (String × Value)}
    (h : applyDateField rec raw g = .ok out) (k : String)
    (hk : k ≠ g ++ "_datetime") : lookupKV out k = lookupKV rec k := by
  unfold applyDateField at h
  split at h
  · cases h; rfl
  · split at h
    · split at h
      · split at h
        · cases h; exact lookupKV_setKV_ne _ _ _ _ hk
        · cases h; rfl
      · cases h
    · cases h; rfl

/-- A successful date-field step preserves nonemptiness of the record. -/
theorem applyDateField_ok_ne_nil {rec raw : List (String × Value)} {g : String}
    {out : List (String × Value)}
    (h : applyDateField rec raw g = .ok out) (hne : rec ≠ []) : out ≠ [] := by
  unfold applyDateField at h
  split at h
  · cases h; exact hne
  · split at h
    · split at h
      · split at h
        · cases h; exact setKV_ne_nil _ _ _
        · cases h; exact hne
      · cases h
    · cases h; exact hne

/-- A date-field step on a field whose raw value is absent or a string never
raises. -/
theorem applyDateField_ok_of_shape (rec raw : List (String × Value)) (g : String)
    (h : lookupKV raw g = none ∨ ∃ t, lookupKV raw g = some (.str t)) :
    ∃ out, applyDateField rec raw g = .ok out := by
  rcases h with h | ⟨t, h⟩
  · exact ⟨rec, by simp [applyDateField, h]⟩
  · cases ht : (Value.str t).truthy with
    | false => exact ⟨rec, by simp [applyDateField, h, ht]⟩
    | true =>
      cases hp : strptime_ymd t with
      | none => exact ⟨rec, by simp [applyDateField, h, ht, hp]⟩
      | some dt =>
        exact ⟨setKV rec (g ++ "_datetime") (.pydatetime dt),
          by simp [applyDateField, h, ht, hp]⟩

/-- A date-field step whose string value fails to parse (or is empty) leaves
the record unchanged: the `ValueError` is caught inside the loop. -/
theorem applyDateField_skip {raw : List (String × Value)} {g : String} {s : String}
    (rec : List (String × Value))
    (h : lookupKV raw g = some (.str s)) (hp : strptime_ymd s = none) :
    applyDateField rec raw g = .ok rec := by
  cases ht : (Value.str s).truthy with
  | false => simp [applyDateField, h, ht]
  | true => simp [applyDateField, h, ht, hp]

/-- A nonempty string parses: `strptime_ymd` of the empty string fails. -/
theorem strptime_some_ne_empty {s : String} {dt : PyDateTime}
    (h : strptime_ymd s = some dt) : s ≠ "" := by
  intro he
  subst he
  have hnone : strptime_ymd "" = none := rfl
  rw [hnone] at h
  exact Option.noConfusion h

/-- A date-field step whose string value parses sets the derived field. -/
theorem applyDateField_set {raw : List (String × Value)} {g : String}
    {s : String} {dt : PyDateTime} (rec : List (String × Value))
    (h : lookupKV raw g = some (.str s)) (hp : strptime_ymd s = some dt) :
    applyDateField rec raw g = .ok (setKV rec (g ++ "_datetime") (.pydatetime dt)) := by
  have hne : s ≠ "" := strptime_some_ne_empty hp
  have ht : (Value.str s).truthy = true := by
    simp [Value.truthy, hne]
  simp [applyDateField, h, ht, hp]

/-- A successful enhancement of a mapping record factors into the enhanced
base followed by the two date-field steps. -/
theorem enhance_ok_destruct {fields : List (String × Value)} {meta : Value}
    {i : Nat} {now : PyDateTime} {e : Value}
    (h : _enhance_vulnerability_record (.obj fields) meta i now = .ok e) :
    ∃ e1 e2,
      applyDateField (enhancedBase fields meta i now) fields "dateAdded" = .ok e1 ∧
      applyDateField e1 fields "dueDate" = .ok e2 ∧ e = .obj e2 := by
  simp only [_enhance_vulnerability_record] at h
  cases hda : applyDateField (enhancedBase fields meta i now) fields "dateAdded" with
  | error m => simp only [hda] at h; exact Except.noConfusion h
  | ok e1 =>
    simp only [hda] at h
    cases hdb : applyDateField e1 fields "dueDate" with
    | error m => simp only [hdb] at h; exact Except.noConfusion h
    | ok e2 =>
      simp only [hdb] at h
      cases h
      exact ⟨e1, e2, rfl, hdb, rfl⟩

/-- Enhancement of a non-mapping record raises (`dict(x)` fails). -/
theorem enhance_nonobj_error (v meta : Value) (i : Nat) (now : PyDateTime)
    (h : v.isObj = false) :
    _enhance_vulnerability_record v meta i now =
      .error "TypeError: cannot convert record to dict" := by
  cases v <;> simp_all [Value.isObj, _enhance_vulnerability_record]

/-- A successfully enhanced record is a truthy (nonempty) dictionary, so the
`if enhanced_record:` guard of line 116 always appends it. -/
theorem enhance_ok_truthy {r meta : Value} {i : Nat} {now : PyDateTime} {e : Value}
    (h : _enhance_vulnerability_record r meta i now = .ok e) : e.truthy = true := by
  cases r with
  | obj fields =>
    obtain ⟨e1, e2, hda, hdb, rfl⟩ := enhance_ok_destruct h
    have h1 : e1 ≠ [] :=
      applyDateField_ok_ne_nil hda (enhancedBase_ne_nil fields meta i now)
    have h2 : e2 ≠ [] := applyDateField_ok_ne_nil hdb h1
    cases e2 with
    | nil => exact absurd rfl h2
    | cons p rest => simp [Value.truthy]
  | null => simp [_enhance_vulnerability_record] at h
  | bool b => simp [_enhance_vulnerability_record] at h
  | int n => simp [_enhance_vulnerability_record] at h
  | str s => simp [_enhance_vulnerability_record] at h
  | pydatetime t => simp [_enhance_vulnerability_record] at h
  | list items => simp [_enhance_vulnerability_record] at h

/-- Frame property of the enhancer: any key other than the five enhancement
keys and the two derived date keys is carried over verbatim from the raw
record. -/
theorem enhance_lookup_frame {fields : List (String × Value)} {meta : Value}
    {i : Nat} {now : PyDateTime} {e : Value}
    (h : _enhance_vulnerability_record (.obj fields) meta i now = .ok e)
    (k : String)
    (h1 : k ≠ "record_processed_at") (h2 : k ≠ "processing_date")
    (h3 : k ≠ "record_position") (h4 : k ≠ "source_system")
    (h5 : k ≠ "catalog_information") (h6 : k ≠ "dateAdded_datetime")
    (h7 : k ≠ "dueDate_datetime") :
    e.lookup k = lookupKV fields k := by
  obtain ⟨e1, e2, hda, hdb, rfl⟩ := enhance_ok_destruct h
  have hb : ("dueDate" ++ "_datetime" : String) = "dueDate_datetime" := rfl
  have ha : ("dateAdded" ++ "_datetime" : String) = "dateAdded_datetime" := rfl
  show lookupKV e2 k = lookupKV fields k
  rw [applyDateField_ok_elim hdb k (by rw [hb]; exact h7),
    applyDateField_ok_elim hda k (by rw [ha]; exact h6),
    enhancedBase_lookup_ne fields meta i now k h1 h2 h3 h4 h5]

/-- The natural key `cveID` is retained verbatim by a successful
enhancement. -/
theorem enhance_preserves_cveID {r meta : Value} {i : Nat} {now : PyDateTime}
    {e : Value} (h : _enhance_vulnerability_record r meta i now = .ok e) :
    e.lookup "cveID" = r.lookup "cveID" := by
  cases r with
  | obj fields =>
    show e.lookup "cveID" = lookupKV fields "cveID"
    exact enhance_lookup_frame h "cveID" (by decide) (by decide) (by decide)
      (by decide) (by decide) (by decide) (by decide)
  | null => simp [_enhance_vulnerability_record] at h
  | bool b => simp [_enhance_vulnerability_record] at h
  | int n => simp [_enhance_vulnerability_record] at h
  | str s => simp [_enhance_vulnerability_record] at h
  | pydatetime t => simp [_enhance_vulnerability_record] at h
  | list items => simp [_enhance_vulnerability_record] at h

/-- The five enhancement fields of a successfully enhanced record, holding
regardless of what the raw record contained under those keys. -/
theorem enhance_lookup_fixed {fields : List (String × Value)} {meta : Value}
    {i : Nat} {now : PyDateTime} {e : Value}
    (h : _enhance_vulnerability_record (.obj fields) meta i now = .ok e) :
    e.lookup "record_processed_at" = some (.pydatetime now) ∧
    e.lookup "processing_date" = some (.str now.dateIso) ∧
    e.lookup "record_position" = some (.int i) ∧
    e.lookup "source_system" = some (.str "cisa_kev_catalog") ∧
    e.lookup "catalog_information" = some meta := by
  obtain ⟨e1, e2, hda, hdb, rfl⟩ := enhance_ok_destruct h
  have hb : ("dueDate" ++ "_datetime" : String) = "dueDate_datetime" := rfl
  have ha : ("dateAdded" ++ "_datetime" : String) = "dateAdded_datetime" := rfl
  obtain ⟨f1, f2, f3, f4, f5⟩ := enhancedBase_lookup_fixed fields meta i now
  refine ⟨?_, ?_, ?_, ?_, ?_⟩ <;>
    · show lookupKV e2 _ = _
      rw [applyDateField_ok_elim hdb _ (by rw [hb]; decide),
        applyDateField_ok_elim hda _ (by rw [ha]; decide)]
      assumption

/-!
Lemmas about the Transformer loop.
-/

/-- The loop keeps exactly the records whose enhancement succeeds: its output
length is the count of successful positions in the enumerated input. -/
theorem process_loop_length (meta : Value) (now : PyDateTime) :
    ∀ (items : List Value) (i : Nat),
      (process_loop items meta i now).length =
        List.countP (fun p => enhanceSucceeds p.2 meta p.1 now) (List.enumFrom i items) := by
  intro items
  induction items with
  | nil => intro i; simp [process_loop, List.enumFrom]
  | cons r rest ih =>
    intro i
    simp only [process_loop, List.enumFrom, List.countP_cons]
    cases henh : _enhance_vulnerability_record r meta i now with
    | ok e =>
      have ht := enhance_ok_truthy henh
      simp [henh, ht, enhanceSucceeds, ih (i + 1), Nat.add_comm]
    | error m =>
      simp [henh, enhanceSucceeds, ih (i + 1)]

/-- Every record in the loop output comes from a successful enhancement of
some input record at its original offset. -/
theorem process_loop_mem (meta : Value) (now : PyDateTime) :
    ∀ (items : List Value) (i : Nat) (e : Value),
      e ∈ process_loop items meta i now →
      ∃ k, ∃ hk : k < items.length,
        _enhance_vulnerability_record (items.get ⟨k, hk⟩) meta (i + k) now = .ok e := by
  intro items
  induction items with
  | nil => intro i e h; simp [process_loop] at h
  | cons r rest ih =>
    intro i e h
    cases henh : _enhance_vulnerability_record r meta i now with
    | ok e0 =>
      have ht := enhance_ok_truthy henh
      simp only [process_loop, henh, ht, if_true] at h
      rcases List.mem_cons.mp h with rfl | hmem
      · exact ⟨0, by simp, henh⟩
      · obtain ⟨k, hk, hke⟩ := ih (i + 1) e hmem
        refine ⟨k + 1, by simpa using Nat.succ_lt_succ hk, ?_⟩
        have harith : i + (k + 1) = (i + 1) + k := by omega
        rw [harith]
        exact hke
    | error m =>
      simp only [process_loop, henh] at h
      obtain ⟨k, hk, hke⟩ := ih (i + 1) e h
      refine ⟨k + 1, by simpa using Nat.succ_lt_succ hk, ?_⟩
      have harith : i + (k + 1) = (i + 1) + k := by omega
      rw [harith]
      exact hke

/-- The `record_position` fields of the loop output are exactly the
surviving original indices, in order. -/
theorem process_loop_map_positions (meta : Value) (now : PyDateTime) :
    ∀ (items : List Value) (i : Nat),
      (process_loop items meta i now).map (fun e => e.lookup "record_position") =
        (surviving_positions items meta i now).map (fun j => some (Value.int j)) := by
  intro items
  induction items with
  | nil => intro i; simp [process_loop, surviving_positions]
  | cons r rest ih =>
    intro i
    cases henh : _enhance_vulnerability_record r meta i now with
    | ok e =>
      have ht := enhance_ok_truthy henh
      have hpos : e.lookup "record_position" = some (.int i) := by
        cases r with
        | obj fields => exact (enhance_lookup_fixed henh).2.2.1
        | null => simp [_enhance_vulnerability_record] at henh
        | bool b => simp [_enhance_vulnerability_record] at henh
        | int n => simp [_enhance_vulnerability_record] at henh
        | str s => simp [_enhance_vulnerability_record] at henh
        | pydatetime t => simp [_enhance_vulnerability_record] at henh
        | list its => simp [_enhance_vulnerability_record] at henh
      simp [process_loop, surviving_positions, henh, ht, hpos, ih (i + 1)]
    | error m =>
      simp [process_loop, surviving_positions, henh, ih (i + 1)]

/-- Surviving positions are bounded below by the starting offset. -/
theorem surviving_positions_ge (meta : Value) (now : PyDateTime) :
    ∀ (items : List Value) (i j : Nat),
      j ∈ surviving_positions items meta i now → i ≤ j := by
  intro items
  induction items with
  | nil => intro i j h; simp [surviving_positions] at h
  | cons r rest ih =>
    intro i j h
    cases henh : _enhance_vulnerability_record r meta i now with
    | ok e =>
      simp only [surviving_positions, henh] at h
      rcases List.mem_cons.mp h with rfl | hmem
      · exact Nat.le_refl j
      · exact Nat.le_of_succ_le (ih (i + 1) j hmem)
    | error m =>
      simp only [surviving_positions, henh] at h
      exact Nat.le_of_succ_le (ih (i + 1) j h)

/-- Surviving positions are strictly increasing: the output batch preserves
the original relative order. -/
theorem surviving_positions_pairwise (meta : Value) (now : PyDateTime) :
    ∀ (items : List Value) (i : Nat),
      (surviving_positions items meta i now).Pairwise (· < ·) := by
  intro items
  induction items with
  | nil => intro i; simp [surviving_positions]
  | cons r rest ih =>
    intro i
    cases henh : _enhance_vulnerability_record r meta i now with
    | ok e =>
      simp only [surviving_positions, henh]
      rw [List.pairwise_cons]
      exact ⟨fun j hj => Nat.lt_of_succ_le (surviving_positions_ge meta now rest (i + 1) j hj),
        ih (i + 1)⟩
    | error m =>
      simp only [surviving_positions, henh]
      exact ih (i + 1)

/-- Characterization of the surviving positions: exactly the offsets of the
records whose enhancement succeeds. -/
theorem surviving_positions_mem_iff (meta : Value) (now : PyDateTime) :
    ∀ (items : List Value) (i j : Nat),
      j ∈ surviving_positions items meta i now ↔
        ∃ k, ∃ hk : k < items.length, j = i + k ∧
          enhanceSucceeds (items.get ⟨k, hk⟩) meta (i + k) now = true := by
  intro items
  induction items with
  | nil =>
    intro i j
    constructor
    · intro h; simp [surviving_positions] at h
    · rintro ⟨k, hk, _, _⟩; simp at hk
  | cons r rest ih =>
    intro i j
    cases henh : _enhance_vulnerability_record r meta i now with
    | ok e =>
      simp only [surviving_positions, henh]
      constructor
      · intro h
        rcases List.mem_cons.mp h with rfl | hmem
        · exact ⟨0, by simp, by simp, by simp [enhanceSucceeds, henh]⟩
        · obtain ⟨k, hk, hj, hs⟩ := (ih (i + 1) j).mp hmem
          refine ⟨k + 1, by simpa using Nat.succ_lt_succ hk, by omega, ?_⟩
          have harith : i + (k + 1) = (i + 1) + k := by omega
          rw [harith]
          exact hs
      · rintro ⟨k, hk, hj, hs⟩
        cases k with
        | zero => simp [hj]
        | succ k0 =>
          refine List.mem_cons.mpr (Or.inr ((ih (i + 1) j).mpr ⟨k0, ?_, by omega, ?_⟩))
          · exact Nat.lt_of_succ_lt_succ hk
          · have harith : (i + 1) + k0 = i + (k0 + 1) := by omega
            rw [harith]
            exact hs
    | error m =>
      simp only [surviving_positions, henh]
      constructor
      · intro h
        obtain ⟨k, hk, hj, hs⟩ := (ih (i + 1) j).mp h
        refine ⟨k + 1, by simpa using Nat.succ_lt_succ hk, by omega, ?_⟩
        have harith : i + (k + 1) = (i + 1) + k := by omega
        rw [harith]
        exact hs
      · rintro ⟨k, hk, hj, hs⟩
        cases k with
        | zero =>
          exfalso
          simp [enhanceSucceeds, henh] at hs
        | succ k0 =>
          refine (ih (i + 1) j).mpr ⟨k0, Nat.lt_of_succ_lt_succ hk, by omega, ?_⟩
          have harith : (i + 1) + k0 = i + (k0 + 1) := by omega
          rw [harith]
          exact hs

/-- Evaluation of the Transformer on a mapping payload with a list of
records under the `vulnerabilities` key: the result is the loop over the
records started at position zero. -/
theorem process_eval {fields : List (String × Value)} {vs : List Value}
    (now : PyDateTime) (h : lookupKV fields "vulnerabilities" = some (.list vs)) :
    process_vulnerability_records (some (.obj fields)) now =
      .ok (process_loop vs (catalog_metadata (.obj fields) now) 0 now) := by
  have hne : fields ≠ [] := lookupKV_some_ne_nil h
  have htr : (Value.obj fields).truthy = true := by
    cases fields with
    | nil => exact absurd rfl hne
    | cons p rest => simp [Value.truthy]
  have hget : (Value.obj fields).getD "vulnerabilities" (.list []) = .list vs := by
    simp [Value.getD, Value.lookup, h]
  cases vs with
  | nil =>
    simp [process_vulnerability_records, htr, Value.isObj, hget, Value.truthy, process_loop]
  | cons r rest =>
    simp [process_vulnerability_records, htr, Value.isObj, hget, Value.truthy,
      Value.pyLen, Value.pyIter]
    exact fun hf => absurd hf hne

/-!
The claims.
-/

/-- C1: for every payload that is a mapping containing a `vulnerabilities`
key with N records, of which M enhance without raising, the transform
returns a batch of exactly M enhanced records, each retaining its original
`cveID` verbatim from the raw record; raising records are absent while the
loop continues over the rest. -/
theorem c1_transform_exact_batch (fields : List (String × Value))
    (vs : List Value) (now : PyDateTime)
    (h : lookupKV fields "vulnerabilities" = some (.list vs)) :
    ∃ out, process_vulnerability_records (some (.obj fields)) now = .ok out ∧
      out.length = List.countP
        (fun p => enhanceSucceeds p.2 (catalog_metadata (.obj fields) now) p.1 now)
        vs.enum ∧
      ∀ e ∈ out, ∃ i, ∃ hi : i < vs.length,
        _enhance_vulnerability_record (vs.get ⟨i, hi⟩)
          (catalog_metadata (.obj fields) now) i now = .ok e ∧
        e.lookup "cveID" = (vs.get ⟨i, hi⟩).lookup "cveID" := by
  refine ⟨process_loop vs (catalog_metadata (.obj fields) now) 0 now,
    process_eval now h, ?_, ?_⟩
  · have henum : vs.enum = List.enumFrom 0 vs := rfl
    rw [henum]
    exact process_loop_length _ _ vs 0
  · intro e he
    obtain ⟨k, hk, hke⟩ := process_loop_mem _ _ vs 0 e he
    rw [Nat.zero_add] at hke
    exact ⟨k, hk, hke, enhance_preserves_cveID hke⟩

/-- C1 witness: a concrete payload with three records of which the middle
one raises (integer `dueDate` makes `strptime` raise `TypeError`) yields a
batch of exactly two records. -/
theorem c1_witness :
    ∃ out, process_vulnerability_records
      (some (.obj [("vulnerabilities", .list
        [.obj [("cveID", .str "CVE-1")],
         .obj [("cveID", .str "CVE-2"), ("dueDate", .int 5)],
         .obj [("cveID", .str "CVE-3")]])]))
      ⟨2024, 1, 2, 3, 4, 5, 0⟩ = .ok out ∧ out.length = 2 := by
  obtain ⟨out, h1, h2, h3⟩ := c1_transform_exact_batch
    [("vulnerabilities", .list
      [.obj [("cveID", .str "CVE-1")],
       .obj [("cveID", .str "CVE-2"), ("dueDate", .int 5)],
       .obj [("cveID", .str "CVE-3")]])]
    [.obj [("cveID", .str "CVE-1")],
     .obj [("cveID", .str "CVE-2"), ("dueDate", .int 5)],
     .obj [("cveID", .str "CVE-3")]]
    ⟨2024, 1, 2, 3, 4, 5, 0⟩ rfl
  refine ⟨out, h1, ?_⟩
  rw [h2]
  rfl

/-- C8: each enhanced record's `record_position` equals its zero-based index
in the original input sequence; the output preserves the original relative
order (surviving positions strictly increase, with gaps at drops). -/
theorem c8_record_positions (fields : List (String × Value)) (vs : List Value)
    (now : PyDateTime)
    (h : lookupKV fields "vulnerabilities" = some (.list vs)) :
    ∃ out, process_vulnerability_records (some (.obj fields)) now = .ok out ∧
      out.map (fun e => e.lookup "record_position") =
        (surviving_positions vs (catalog_metadata (.obj fields) now) 0 now).map
          (fun j => some (Value.int j)) ∧
      (surviving_positions vs (catalog_metadata (.obj fields) now) 0 now).Pairwise (· < ·) ∧
      ∀ j, (j ∈ surviving_positions vs (catalog_metadata (.obj fields) now) 0 now ↔
        ∃ hj : j < vs.length,
          enhanceSucceeds (vs.get ⟨j, hj⟩) (catalog_metadata (.obj fields) now) j now = true) := by
  refine ⟨process_loop vs (catalog_metadata (.obj fields) now) 0 now,
    process_eval now h, process_loop_map_positions _ _ vs 0,
    surviving_positions_pairwise _ _ vs 0, ?_⟩
  intro j
  rw [surviving_positions_mem_iff]
  constructor
  · rintro ⟨k, hk, rfl, hs⟩
    simp only [Nat.zero_add] at hs ⊢
    exact ⟨hk, hs⟩
  · rintro ⟨hj, hs⟩
    refine ⟨j, hj, (Nat.zero_add j).symm, ?_⟩
    rw [Nat.zero_add]
    exact hs

/-- C8 witness: with the middle record raising, the surviving positions are
0 and 2 — original ordinals with a gap, in increasing order. -/
theorem c8_witness :
    ∃ out, process_vulnerability_records
      (some (.obj [("vulnerabilities", .list
        [.obj [("cveID", .str "CVE-1")],
         .obj [("cveID", .str "CVE-2"), ("dueDate", .int 5)],
         .obj [("cveID", .str "CVE-3")]])]))
      ⟨2024, 1, 2, 3, 4, 5, 0⟩ = .ok out ∧
      out.map (fun e => e.lookup "record_position") =
        [some (Value.int 0), some (Value.int 2)] := by
  obtain ⟨out, h1, h2, h3, h4⟩ := c8_record_positions
    [("vulnerabilities", .list
      [.obj [("cveID", .str "CVE-1")],
       .obj [("cveID", .str "CVE-2"), ("dueDate", .int 5)],
       .obj [("cveID", .str "CVE-3")]])]
    [.obj [("cveID", .str "CVE-1")],
     .obj [("cveID", .str "CVE-2"), ("dueDate", .int 5)],
     .obj [("cveID", .str "CVE-3")]]
    ⟨2024, 1, 2, 3, 4, 5, 0⟩ rfl
  refine ⟨out, h1, ?_⟩
  rw [h2]
  rfl

/-- C2: for every non-empty batch, when the target collection already holds
K > 0 documents, a successful load deletes all K pre-existing documents
before inserting the entire new batch in one bulk operation, leaves exactly
the new batch present, and returns true. -/
theorem c2_full_refresh_load (batch : List Value) (st : MongoState) (K : Nat)
    (hb : batch ≠ []) (hk : st.docs.length = K) (hpos : 0 < K) :
    store_in_mongodb batch st noFaults =
      (true, ⟨batch⟩,
        [.connect, .countDocuments K, .deleteMany K,
         .insertMany batch.length, .createIndexes, .close]) := by
  have hne : batch.isEmpty = false := by
    cases batch with
    | nil => exact absurd rfl hb
    | cons b bs => rfl
  subst hk
  simp [store_in_mongodb, hne, noFaults, hpos]

/-- C2 witness: loading one record over two pre-existing documents replaces
them and reports the delete before the insert. -/
theorem c2_witness :
    store_in_mongodb [.obj [("cveID", .str "CVE-1")]] ⟨[.null, .null]⟩ noFaults =
      (true, ⟨[.obj [("cveID", .str "CVE-1")]]⟩,
        [.connect, .countDocuments 2, .deleteMany 2,
         .insertMany 1, .createIndexes, .close]) :=
  c2_full_refresh_load [.obj [("cveID", .str "CVE-1")]] ⟨[.null, .null]⟩ 2
    (List.cons_ne_nil _ _) rfl (by decide)

/-- C3: for the empty batch, the loader returns false without opening a
store connection and without performing any delete or insert; the store
state is unchanged. -/
theorem c3_empty_batch_refused (st : MongoState) (f : StoreFaults) :
    store_in_mongodb [] st f = (false, st, []) := rfl

/-- C4: any exception raised by a stage beyond its declared failure signals
(here, a transformation raise) is caught by the orchestrator and converted
to a false result with the store untreated; the orchestrator is total and
always yields a boolean. -/
theorem c4_orchestrator_catches (v : Value) (now : PyDateTime) (st : MongoState)
    (f : StoreFaults) (msg : String)
    (h : process_vulnerability_records (some v) now = .error msg) :
    pipeline_after_fetch (some v) now st f = (false, st, []) ∧
    ∀ env : PipelineEnv,
      (execute_complete_pipeline env).1 = false ∨
      (execute_complete_pipeline env).1 = true := by
  constructor
  · cases htr : v.truthy with
    | false =>
      exfalso
      simp [process_vulnerability_records, htr] at h
    | true =>
      simp [pipeline_after_fetch, htr, h]
  · intro env
    cases hb : (execute_complete_pipeline env).1 with
    | false => exact Or.inl rfl
    | true => exact Or.inr rfl

/-- C4 witness: a payload whose `vulnerabilities` value is an integer makes
the transformation raise (`len` of a non-sized value); the orchestrator
returns false with no store interaction. -/
theorem c4_witness :
    pipeline_after_fetch (some (.obj [("vulnerabilities", .int 3)]))
      ⟨2024, 1, 2, 3, 4, 5, 0⟩ ⟨[.null]⟩ noFaults = (false, ⟨[.null]⟩, []) :=
  (c4_orchestrator_catches (.obj [("vulnerabilities", .int 3)])
    ⟨2024, 1, 2, 3, 4, 5, 0⟩ ⟨[.null]⟩ noFaults "TypeError: object has no len" rfl).1

/-- C6 counterexample: a non-2xx response does not always fail the run.
An HTTP 302 response carrying a valid catalog body is processed:
`raise_for_status` does not raise below 400, the extractor returns the
payload rather than the failure signal, the pipeline terminates with true,
and the loader performs a full store interaction (connect, count, insert,
indexes, close). -/
theorem c6_counterexample :
    (fetch_vulnerability_data (.response 302 (some (.obj
      [("vulnerabilities", .list
        [.obj [("cveID", .str "CVE-1"), ("vendorProject", .str "Acme")]])])))).1 =
      some (.obj [("vulnerabilities", .list
        [.obj [("cveID", .str "CVE-1"), ("vendorProject", .str "Acme")]])]) ∧
    (execute_complete_pipeline
      ⟨.response 302 (some (.obj
        [("vulnerabilities", .list
          [.obj [("cveID", .str "CVE-1"), ("vendorProject", .str "Acme")]])])),
       ⟨2024, 1, 2, 3, 4, 5, 0⟩, ⟨[]⟩, noFaults⟩).1 = true ∧
    (execute_complete_pipeline
      ⟨.response 302 (some (.obj
        [("vulnerabilities", .list
          [.obj [("cveID", .str "CVE-1"), ("vendorProject", .str "Acme")]])])),
       ⟨2024, 1, 2, 3, 4, 5, 0⟩, ⟨[]⟩, noFaults⟩).2.2 =
      [.connect, .countDocuments 0, .insertMany 1, .createIndexes, .close] :=
  ⟨rfl, rfl, rfl⟩

/-- C6 (amended): on a transport-level failure (timeout, connection refused)
or an HTTP error status in the 4xx/5xx range — the statuses for which
`raise_for_status` raises — the extractor returns the failure signal without
raising, the pipeline terminates with false, and no store interaction of any
kind occurs. -/
theorem c6_transport_failure_no_store (env : PipelineEnv)
    (h : env.http = .timeout ∨ env.http = .connectionError ∨
      ∃ s b, env.http = .response s b ∧ 400 ≤ s ∧ s < 600) :
    (fetch_vulnerability_data env.http).1 = none ∧
    execute_complete_pipeline env = (false, env.store, []) := by
  have hfetch : (fetch_vulnerability_data env.http).1 = none := by
    rcases h with h | h | ⟨s, b, h, hs1, hs2⟩
    · rw [h]; rfl
    · rw [h]; rfl
    · rw [h]; simp [fetch_vulnerability_data, hs1, hs2]
  refine ⟨hfetch, ?_⟩
  unfold execute_complete_pipeline
  rw [hfetch]
  rfl

/-- C6 witness: an HTTP 503 response yields a failed extraction, a false
pipeline result, unchanged store state and an empty store trace. -/
theorem c6_witness :
    (fetch_vulnerability_data (.response 503 none)).1 = none ∧
    execute_complete_pipeline
      ⟨.response 503 none, ⟨2024, 1, 2, 3, 4, 5, 0⟩, ⟨[.null]⟩, noFaults⟩ =
      (false, ⟨[.null]⟩, []) :=
  c6_transport_failure_no_store
    ⟨.response 503 none, ⟨2024, 1, 2, 3, 4, 5, 0⟩, ⟨[.null]⟩, noFaults⟩
    (Or.inr (Or.inr ⟨503, none, rfl, by decide, by decide⟩))

/-- C7: a payload whose `vulnerabilities` field is the empty sequence makes
the transform return the empty batch and the orchestrator terminate with
false without invoking the loader; likewise for an absent payload. -/
theorem c7_empty_batch_pipeline_fails (fields : List (String × Value))
    (now : PyDateTime) (st : MongoState) (f : StoreFaults)
    (h : lookupKV fields "vulnerabilities" = some (.list [])) :
    process_vulnerability_records (some (.obj fields)) now = .ok [] ∧
    pipeline_after_fetch (some (.obj fields)) now st f = (false, st, []) ∧
    process_vulnerability_records none now = .ok [] ∧
    pipeline_after_fetch none now st f = (false, st, []) := by
  have hproc : process_vulnerability_records (some (.obj fields)) now = .ok [] := by
    have he := process_eval now h
    simpa [process_loop] using he
  have hne : fields ≠ [] := lookupKV_some_ne_nil h
  have htr : (Value.obj fields).truthy = true := by
    cases fields with
    | nil => exact absurd rfl hne
    | cons p rest => simp [Value.truthy]
  refine ⟨hproc, ?_, rfl, rfl⟩
  simp [pipeline_after_fetch, htr, hproc]

/-- C7 witness: the concrete payload with an empty `vulnerabilities` list. -/
theorem c7_witness :
    process_vulnerability_records
      (some (.obj [("vulnerabilities", .list []), ("catalogVersion", .str "v1")]))
      ⟨2024, 1, 2, 3, 4, 5, 0⟩ = .ok [] ∧
    pipeline_after_fetch
      (some (.obj [("vulnerabilities", .list []), ("catalogVersion", .str "v1")]))
      ⟨2024, 1, 2, 3, 4, 5, 0⟩ ⟨[.null]⟩ noFaults = (false, ⟨[.null]⟩, []) ∧
    process_vulnerability_records none ⟨2024, 1, 2, 3, 4, 5, 0⟩ = .ok [] ∧
    pipeline_after_fetch none ⟨2024, 1, 2, 3, 4, 5, 0⟩ ⟨[.null]⟩ noFaults =
      (false, ⟨[.null]⟩, []) :=
  c7_empty_batch_pipeline_fails
    [("vulnerabilities", .list []), ("catalogVersion", .str "v1")]
    ⟨2024, 1, 2, 3, 4, 5, 0⟩ ⟨[.null]⟩ noFaults rfl

/-- C5: a raw record whose configured date field is present and non-empty
but fails to parse as `YYYY-MM-DD` still enhances successfully: the record
is a truthy member of the batch, the derived parsed-date field is absent,
and the original string field is retained verbatim. -/
theorem c5_unparseable_date_soft (fields : List (String × Value)) (f s : String)
    (meta : Value) (i : Nat) (now : PyDateTime)
    (hf : f = "dateAdded" ∨ f = "dueDate")
    (hlook : lookupKV fields f = some (.str s))
    (hnonempty : s ≠ "")
    (hparse : strptime_ymd s = none)
    (hshape1 : lookupKV fields "dateAdded" = none ∨
      ∃ t, lookupKV fields "dateAdded" = some (.str t))
    (hshape2 : lookupKV fields "dueDate" = none ∨
      ∃ t, lookupKV fields "dueDate" = some (.str t))
    (hcol : lookupKV fields (f ++ "_datetime") = none) :
    ∃ e, _enhance_vulnerability_record (.obj fields) meta i now = .ok e ∧
      e.truthy = true ∧
      e.lookup (f ++ "_datetime") = none ∧
      e.lookup f = some (.str s) := by
  have ha : ("dateAdded" ++ "_datetime" : String) = "dateAdded_datetime" := rfl
  have hb : ("dueDate" ++ "_datetime" : String) = "dueDate_datetime" := rfl
  rcases hf with rfl | rfl
  · rw [ha] at hcol
    simp only [ha]
    have hskip : applyDateField (enhancedBase fields meta i now) fields "dateAdded" =
        .ok (enhancedBase fields meta i now) :=
      applyDateField_skip _ hlook hparse
    obtain ⟨e2, hok2⟩ :=
      applyDateField_ok_of_shape (enhancedBase fields meta i now) fields "dueDate" hshape2
    have henh : _enhance_vulnerability_record (.obj fields) meta i now = .ok (.obj e2) := by
      simp [_enhance_vulnerability_record, hskip, hok2]
    refine ⟨.obj e2, henh, enhance_ok_truthy henh, ?_, ?_⟩
    · show lookupKV e2 "dateAdded_datetime" = none
      rw [applyDateField_ok_elim hok2 _ (by rw [hb]; decide),
        enhancedBase_lookup_ne fields meta i now _ (by decide) (by decide) (by decide)
          (by decide) (by decide)]
      exact hcol
    · show lookupKV e2 "dateAdded" = some (.str s)
      rw [applyDateField_ok_elim hok2 _ (by rw [hb]; decide),
        enhancedBase_lookup_ne fields meta i now _ (by decide) (by decide) (by decide)
          (by decide) (by decide)]
      exact hlook
  · rw [hb] at hcol
    simp only [hb]
    obtain ⟨e1, hok1⟩ :=
      applyDateField_ok_of_shape (enhancedBase fields meta i now) fields "dateAdded" hshape1
    have hskip : applyDateField e1 fields "dueDate" = .ok e1 :=
      applyDateField_skip e1 hlook hparse
    have henh : _enhance_vulnerability_record (.obj fields) meta i now = .ok (.obj e1) := by
      simp [_enhance_vulnerability_record, hok1, hskip]
    refine ⟨.obj e1, henh, enhance_ok_truthy henh, ?_, ?_⟩
    · show lookupKV e1 "dueDate_datetime" = none
      rw [applyDateField_ok_elim hok1 _ (by rw [ha]; decide),
        enhancedBase_lookup_ne fields meta i now _ (by decide) (by decide) (by decide)
          (by decide) (by decide)]
      exact hcol
    · show lookupKV e1 "dueDate" = some (.str s)
      rw [applyDateField_ok_elim hok1 _ (by rw [ha]; decide),
        enhancedBase_lookup_ne fields meta i now _ (by decide) (by decide) (by decide)
          (by decide) (by decide)]
      exact hlook

/-- C5 witness: a record with `dateAdded = "not-a-date"` enhances, keeps the
original string, and carries no derived `dateAdded_datetime` field. -/
theorem c5_witness :
    ∃ e, _enhance_vulnerability_record
        (.obj [("cveID", .str "CVE-1"), ("dateAdded", .str "not-a-date")])
        .null 0 ⟨2024, 1, 2, 3, 4, 5, 0⟩ = .ok e ∧
      e.truthy = true ∧
      e.lookup ("dateAdded" ++ "_datetime") = none ∧
      e.lookup "dateAdded" = some (.str "not-a-date") :=
  c5_unparseable_date_soft
    [("cveID", .str "CVE-1"), ("dateAdded", .str "not-a-date")]
    "dateAdded" "not-a-date" .null 0 ⟨2024, 1, 2, 3, 4, 5, 0⟩
    (Or.inl rfl) rfl (by decide) rfl
    (Or.inr ⟨"not-a-date", rfl⟩) (Or.inl rfl) rfl

/-- C10: the five enhancement fields are written unconditionally (a raw
record carrying one of those keys has its value silently overwritten), a
parseable date field adds the corresponding derived datetime field, and
every other raw field is carried over verbatim; the raw record and metadata
are never mutated (the enhancer is a pure function of its inputs). -/
theorem c10_enhancement_overwrite_frame (fields : List (String × Value))
    (meta : Value) (i : Nat) (now : PyDateTime) (e : Value)
    (h : _enhance_vulnerability_record (.obj fields) meta i now = .ok e) :
    e.lookup "record_processed_at" = some (.pydatetime now) ∧
    e.lookup "processing_date" = some (.str now.dateIso) ∧
    e.lookup "record_position" = some (.int i) ∧
    e.lookup "source_system" = some (.str "cisa_kev_catalog") ∧
    e.lookup "catalog_information" = some meta ∧
    (∀ k, k ≠ "record_processed_at" → k ≠ "processing_date" →
      k ≠ "record_position" → k ≠ "source_system" → k ≠ "catalog_information" →
      k ≠ "dateAdded_datetime" → k ≠ "dueDate_datetime" →
      e.lookup k = lookupKV fields k) ∧
    (∀ s dt, lookupKV fields "dateAdded" = some (.str s) →
      strptime_ymd s = some dt →
      e.lookup "dateAdded_datetime" = some (.pydatetime dt)) ∧
    (∀ s dt, lookupKV fields "dueDate" = some (.str s) →
      strptime_ymd s = some dt →
      e.lookup "dueDate_datetime" = some (.pydatetime dt)) := by
  have ha : ("dateAdded" ++ "_datetime" : String) = "dateAdded_datetime" := rfl
  have hb : ("dueDate" ++ "_datetime" : String) = "dueDate_datetime" := rfl
  obtain ⟨f1, f2, f3, f4, f5⟩ := enhance_lookup_fixed h
  refine ⟨f1, f2, f3, f4, f5, ?_, ?_, ?_⟩
  · intro k h1 h2 h3 h4 h5 h6 h7
    exact enhance_lookup_frame h k h1 h2 h3 h4 h5 h6 h7
  · intro s dt hs hp
    obtain ⟨e1, e2, hda, hdb, rfl⟩ := enhance_ok_destruct h
    have hset := applyDateField_set (enhancedBase fields meta i now) hs hp
    rw [hda] at hset
    injection hset with he1
    rw [ha] at he1
    show lookupKV e2 "dateAdded_datetime" = some (.pydatetime dt)
    rw [applyDateField_ok_elim hdb _ (by rw [hb]; decide), he1, lookupKV_setKV_self]
  · intro s dt hs hp
    obtain ⟨e1, e2, hda, hdb, rfl⟩ := enhance_ok_destruct h
    have hset := applyDateField_set e1 hs hp
    rw [hdb] at hset
    injection hset with he2
    rw [hb] at he2
    show lookupKV e2 "dueDate_datetime" = some (.pydatetime dt)
    rw [he2, lookupKV_setKV_self]

/-- C10 witness: a raw record already carrying a `source_system` key has it
silently overwritten with the constant tag, while `cveID` and `vendorProject`
are carried over verbatim and a parseable `dateAdded` yields the derived
field. -/
theorem c10_witness :
    ∃ e, _enhance_vulnerability_record
        (.obj [("cveID", .str "CVE-1"), ("source_system", .str "mine"),
               ("vendorProject", .str "Acme"), ("dateAdded", .str "2021-05-01")])
        .null 0 ⟨2024, 1, 2, 3, 4, 5, 0⟩ = .ok e ∧
      e.lookup "source_system" = some (.str "cisa_kev_catalog") ∧
      e.lookup "vendorProject" = some (.str "Acme") ∧
      e.lookup "dateAdded_datetime" = some (.pydatetime ⟨2021, 5, 1, 0, 0, 0, 0⟩) := by
  have h : _enhance_vulnerability_record
      (.obj [("cveID", .str "CVE-1"), ("source_system", .str "mine"),
             ("vendorProject", .str "Acme"), ("dateAdded", .str "2021-05-01")])
      .null 0 ⟨2024, 1, 2, 3, 4, 5, 0⟩ =
      .ok (.obj (setKV
        (enhancedBase
          [("cveID", .str "CVE-1"), ("source_system", .str "mine"),
           ("vendorProject", .str "Acme"), ("dateAdded", .str "2021-05-01")]
          .null 0 ⟨2024, 1, 2, 3, 4, 5, 0⟩)
        "dateAdded_datetime" (.pydatetime ⟨2021, 5, 1, 0, 0, 0, 0⟩))) := rfl
  obtain ⟨g1, g2, g3, g4, g5, gframe, gdate, _⟩ :=
    c10_enhancement_overwrite_frame
      [("cveID", .str "CVE-1"), ("source_system", .str "mine"),
       ("vendorProject", .str "Acme"), ("dateAdded", .str "2021-05-01")]
      .null 0 ⟨2024, 1, 2, 3, 4, 5, 0⟩ _ h
  refine ⟨_, h, g4, ?_, ?_⟩
  · rw [gframe "vendorProject" (by decide) (by decide) (by decide) (by decide)
      (by decide) (by decide) (by decide)]
    rfl
  · exact gdate "2021-05-01" ⟨2021, 5, 1, 0, 0, 0, 0⟩ rfl rfl

/-- C9 counterexample: the extractor's returned failure signal for a
malformed (undecodable) body equals the one for a wrong-shape (non-mapping)
body — both are `None` — so the returned signals are not distinguishable. -/
theorem c9_counterexample :
    (fetch_vulnerability_data (.response 200 none)).1 = none ∧
    (fetch_vulnerability_data (.response 200 (some (.list [])))).1 = none ∧
    (fetch_vulnerability_data (.response 200 none)).1 =
      (fetch_vulnerability_data (.response 200 (some (.list [])))).1 :=
  ⟨rfl, rfl, rfl⟩

/-- C9 amended: for an undecodable body, a non-mapping body, and a mapping
lacking the `vulnerabilities` key, the extractor reports failure returning
`None` in each case; the cause is distinguishable only through the emitted
log line (`json.JSONDecodeError` handler versus the generic unexpected-error
handler with different messages), not through the returned signal. -/
theorem c9_failure_cause_in_logs (v : Value) (fields : List (String × Value))
    (hv : v.isObj = false)
    (hmk : lookupKV fields "vulnerabilities" = none) :
    fetch_vulnerability_data (.response 200 none) =
      (none, [.errJsonDecode]) ∧
    fetch_vulnerability_data (.response 200 (some v)) =
      (none, [.errUnexpected "API returned invalid data format"]) ∧
    fetch_vulnerability_data (.response 200 (some (.obj fields))) =
      (none, [.errUnexpected "Missing vulnerabilities key in API response"]) ∧
    ([FetchLog.errJsonDecode] ≠
      [FetchLog.errUnexpected "API returned invalid data format"]) ∧
    ([FetchLog.errUnexpected "API returned invalid data format"] ≠
      [FetchLog.errUnexpected "Missing vulnerabilities key in API response"]) := by
  refine ⟨rfl, ?_, ?_, by simp, by simp⟩
  · simp [fetch_vulnerability_data, hv]
  · simp [fetch_vulnerability_data, Value.isObj, Value.lookup, hmk]

/-- C9 witness: the amended statement at a concrete non-mapping body (a JSON
array) and a concrete mapping without the `vulnerabilities` key. -/
theorem c9_witness :
    fetch_vulnerability_data (.response 200 none) =
      (none, [.errJsonDecode]) ∧
    fetch_vulnerability_data (.response 200 (some (.list []))) =
      (none, [.errUnexpected "API returned invalid data format"]) ∧
    fetch_vulnerability_data (.response 200 (some (.obj [("count", .int 0)]))) =
      (none, [.errUnexpected "Missing vulnerabilities key in API response"]) ∧
    ([FetchLog.errJsonDecode] ≠
      [FetchLog.errUnexpected "API returned invalid data format"]) ∧
    ([FetchLog.errUnexpected "API returned invalid data format"] ≠
      [FetchLog.errUnexpected "Missing vulnerabilities key in API response"]) :=
  c9_failure_cause_in_logs (.list []) [("count", .int 0)] rfl rfl
